import Mathlib

/-!
Verification development for the barter-rs delta-neutral prediction-market
arbitrage core.

The Rust source is shallowly embedded: `rust_decimal::Decimal` values (exact
decimal arithmetic) are modelled as `ℚ`, machine integers (`u32`, `u64`) as
`ℕ`, signed deltas (`i32`) as `ℤ`, and fallible or stateful code as explicit
state passing.  The depth-walking loop of `walk_orderbook_levels` is embedded
as a step function iterated with explicit fuel; fuel exhaustion is made
observable by returning `Option`, and it is proved that fuel equal to the sum
of the two ladder lengths always suffices.
-/

namespace BarterArb

/-- Venue identifier (`barter_instrument::exchange::ExchangeId`), restricted
to the venues this strategy distinguishes; every other venue falls into the
`other` arm exactly as the Rust `match` wildcard does. -/
inductive ExchangeId where
  | kalshi
  | polymarket
  | other
deriving DecidableEq, Repr

/-- Outcome side of a prediction market (`correlation::Outcome`). -/
inductive Outcome where
  | yes
  | no
deriving DecidableEq, Repr

/-- `Outcome::inverse`: swap YES and NO. -/
def Outcome.inverse : Outcome → Outcome
  | .yes => .no
  | .no => .yes

/-- One price level of an orderbook ladder (`barter_data::books::Level`):
a price and an amount, both exact decimals. -/
structure Level where
  price : ℚ
  amount : ℚ
deriving DecidableEq, Repr

/-- Modelled from the spec: the `barter_data::books` module is not present in
the sources, only its users.  Per the spec an `OrderBook` is a sequence id,
an optional timestamp (dropped here, it is never read by the core), a bid
ladder and an ask ladder. -/
structure OrderBook where
  sequence : ℕ
  bids : List Level
  asks : List Level
deriving DecidableEq, Repr

/-- `FeeCalculator::kalshi_taker_fee`: 7% of profit potential,
`0.07 * contracts * price * (1 - price)`. -/
def kalshi_taker_fee (price : ℚ) (contracts : ℕ) : ℚ :=
  7 / 100 * (contracts : ℚ) * price * (1 - price)

/-- `FeeCalculator::polymarket_taker_fee`:
`contracts * price * (fee_bps / 10000)`. -/
def polymarket_taker_fee (price : ℚ) (contracts : ℕ) (fee_bps : ℕ) : ℚ :=
  (contracts : ℚ) * price * ((fee_bps : ℚ) / 10000)

/-- Per-fill fee selection in `walk_orderbook_levels`: Kalshi and Polymarket
use their taker-fee formulas, any other venue pays zero. -/
def platform_fee (platform : ExchangeId) (price : ℚ) (contracts : ℕ)
    (poly_fee_bps : ℕ) : ℚ :=
  match platform with
  | .kalshi => kalshi_taker_fee price contracts
  | .polymarket => polymarket_taker_fee price contracts poly_fee_bps
  | .other => 0

/-- `rust_decimal`'s `to_u32().unwrap_or(0)`: negative values and values whose
truncation exceeds `u32::MAX` convert to `None` (hence 0), otherwise the
fractional part is truncated downward. -/
def decimal_to_u32 (q : ℚ) : ℕ :=
  if q < 0 then 0
  else if 4294967295 < q.floor then 0
  else q.floor.toNat

/-- Everything `walk_orderbook_levels` closes over: the two ask ladders, the
two venue identifiers used for fee selection, and the Polymarket fee bps. -/
structure WalkInput where
  yes_asks : List Level
  no_asks : List Level
  yes_platform : ExchangeId
  no_platform : ExchangeId
  poly_fee_bps : ℕ
deriving DecidableEq, Repr

/-- The mutable locals of the `while` loop in `walk_orderbook_levels`. -/
structure WalkState where
  yes_idx : ℕ
  no_idx : ℕ
  yes_remaining : ℚ
  no_remaining : ℚ
  total_size : ℕ
  total_yes_cost : ℚ
  total_no_cost : ℚ
  total_fees : ℚ
  total_profit : ℚ
deriving DecidableEq, Repr

/-- `struct WalkResult`: result of walking two orderbook sides. -/
structure WalkResult where
  total_size : ℕ
  total_profit : ℚ
  avg_yes_price : ℚ
  avg_no_price : ℚ
  total_fees : ℚ
  total_cost : ℚ
deriving DecidableEq, Repr

/-- `yes_asks[yes_idx].price` (only read while `yes_idx` is in bounds). -/
def yesPrice (inp : WalkInput) (st : WalkState) : ℚ :=
  (inp.yes_asks.getD st.yes_idx ⟨0, 0⟩).price

/-- `no_asks[no_idx].price` (only read while `no_idx` is in bounds). -/
def noPrice (inp : WalkInput) (st : WalkState) : ℚ :=
  (inp.no_asks.getD st.no_idx ⟨0, 0⟩).price

/-- `fill_amount = yes_remaining.min(no_remaining)`. -/
def fillAmount (st : WalkState) : ℚ :=
  min st.yes_remaining st.no_remaining

/-- `fill_size = fill_amount.to_u32().unwrap_or(0)`. -/
def fillSize (st : WalkState) : ℕ :=
  decimal_to_u32 (fillAmount st)

/-- The YES-side per-fill fee of the current iteration. -/
def yesFee (inp : WalkInput) (st : WalkState) : ℚ :=
  platform_fee inp.yes_platform (yesPrice inp st) (fillSize st) inp.poly_fee_bps

/-- The NO-side per-fill fee of the current iteration. -/
def noFee (inp : WalkInput) (st : WalkState) : ℚ :=
  platform_fee inp.no_platform (noPrice inp st) (fillSize st) inp.poly_fee_bps

/-- `cost_per_contract = yes_price + no_price + (yes_fee + no_fee) / fill`. -/
def costPerContract (inp : WalkInput) (st : WalkState) : ℚ :=
  yesPrice inp st + noPrice inp st + (yesFee inp st + noFee inp st) / (fillSize st : ℚ)

/-- The guard of the `while` loop:
`yes_idx < yes_asks.len() && no_idx < no_asks.len()`. -/
def loopCond (inp : WalkInput) (st : WalkState) : Prop :=
  st.yes_idx < inp.yes_asks.length ∧ st.no_idx < inp.no_asks.length

instance (inp : WalkInput) (st : WalkState) : Decidable (loopCond inp st) :=
  inferInstanceAs (Decidable (_ ∧ _))

/-- Outcome of one execution of the loop body: either the loop `break`s with
this state, or it continues into the next iteration with this state. -/
inductive StepOut where
  | stop (st : WalkState)
  | next (st : WalkState)
deriving DecidableEq, Repr

/-- The accumulation block of the loop body (source lines 117-124): add the
fill to every total and deduct the fill amount from both remaining
counters. -/
def accumulate (inp : WalkInput) (st : WalkState) : WalkState :=
  { st with
    total_size := st.total_size + fillSize st
    total_yes_cost := st.total_yes_cost + yesPrice inp st * (fillSize st : ℚ)
    total_no_cost := st.total_no_cost + noPrice inp st * (fillSize st : ℚ)
    total_fees := st.total_fees + (yesFee inp st + noFee inp st)
    total_profit := st.total_profit + (1 - costPerContract inp st) * (fillSize st : ℚ)
    yes_remaining := st.yes_remaining - fillAmount st
    no_remaining := st.no_remaining - fillAmount st }

/-- Cursor advance for the YES side (source lines 126-131): when the current
level is exhausted, step to the next index and pull its quantity if it is
still in bounds. -/
def advanceYes (inp : WalkInput) (st : WalkState) : WalkState :=
  if st.yes_remaining ≤ 0 then
    { st with
      yes_idx := st.yes_idx + 1
      yes_remaining :=
        if st.yes_idx + 1 < inp.yes_asks.length then
          (inp.yes_asks.getD (st.yes_idx + 1) ⟨0, 0⟩).amount
        else st.yes_remaining }
  else st

/-- Cursor advance for the NO side (source lines 132-137). -/
def advanceNo (inp : WalkInput) (st : WalkState) : WalkState :=
  if st.no_remaining ≤ 0 then
    { st with
      no_idx := st.no_idx + 1
      no_remaining :=
        if st.no_idx + 1 < inp.no_asks.length then
          (inp.no_asks.getD (st.no_idx + 1) ⟨0, 0⟩).amount
        else st.no_remaining }
  else st

/-- One execution of the body of the `while` loop in
`walk_orderbook_levels` (source lines 85-141), in source order: compute the
fill, `break` on a zero fill, `break` when the marginal cost reaches 1.00,
otherwise accumulate, deduct the fill from both remaining counters, advance
exhausted cursors, and `break` if both sides are exhausted. -/
def walkStep (inp : WalkInput) (st : WalkState) : StepOut :=
  if fillSize st = 0 then .stop st
  else if 1 ≤ costPerContract inp st then .stop st
  else if (advanceNo inp (advanceYes inp (accumulate inp st))).yes_remaining ≤ 0 ∧
      (advanceNo inp (advanceYes inp (accumulate inp st))).no_remaining ≤ 0 then
    .stop (advanceNo inp (advanceYes inp (accumulate inp st)))
  else .next (advanceNo inp (advanceYes inp (accumulate inp st)))

/-- The `while` loop iterated with explicit fuel.  `none` means the fuel ran
out while the loop guard still held; the development proves this never
happens for fuel `yes_asks.length + no_asks.length`. -/
def walkLoop (inp : WalkInput) : ℕ → WalkState → Option WalkState
  | 0, st => if loopCond inp st then none else some st
  | fuel + 1, st =>
    if loopCond inp st then
      match walkStep inp st with
      | .stop st2 => some st2
      | .next st2 => walkLoop inp fuel st2
    else some st

/-- The initial values of the loop locals (source lines 73-82). -/
def initState (inp : WalkInput) : WalkState :=
  { yes_idx := 0
    no_idx := 0
    yes_remaining := ((inp.yes_asks.head?).map Level.amount).getD 0
    no_remaining := ((inp.no_asks.head?).map Level.amount).getD 0
    total_size := 0
    total_yes_cost := 0
    total_no_cost := 0
    total_fees := 0
    total_profit := 0 }

/-- The post-loop computation of `walk_orderbook_levels` (source lines
144-161): volume-weighted averages and blended cost when anything filled,
exact zeros under the explicit `total_size > 0` guard otherwise. -/
def finalizeWalk (st : WalkState) : WalkResult :=
  if 0 < st.total_size then
    let n : ℚ := (st.total_size : ℚ)
    let avg_yes := st.total_yes_cost / n
    let avg_no := st.total_no_cost / n
    let avg_fee := st.total_fees / n
    { total_size := st.total_size
      total_profit := st.total_profit
      avg_yes_price := avg_yes
      avg_no_price := avg_no
      total_fees := st.total_fees
      total_cost := avg_yes + avg_no + avg_fee }
  else
    { total_size := st.total_size
      total_profit := st.total_profit
      avg_yes_price := 0
      avg_no_price := 0
      total_fees := st.total_fees
      total_cost := 0 }

/-- `walk_orderbook_levels`: run the loop to completion (fuel sufficiency is
proved separately; the `none` arm is dead code) and finalize. -/
def walk_orderbook_levels (inp : WalkInput) : WalkResult :=
  match walkLoop inp (inp.yes_asks.length + inp.no_asks.length) (initState inp) with
  | some st => finalizeWalk st
  | none => finalizeWalk (initState inp)

/-! ### Structural lemmas about the loop body -/

lemma advanceYes_totals (inp : WalkInput) (st : WalkState) :
    (advanceYes inp st).total_size = st.total_size ∧
    (advanceYes inp st).total_yes_cost = st.total_yes_cost ∧
    (advanceYes inp st).total_no_cost = st.total_no_cost ∧
    (advanceYes inp st).total_fees = st.total_fees ∧
    (advanceYes inp st).total_profit = st.total_profit := by
  unfold advanceYes
  split <;> exact ⟨rfl, rfl, rfl, rfl, rfl⟩

lemma advanceNo_totals (inp : WalkInput) (st : WalkState) :
    (advanceNo inp st).total_size = st.total_size ∧
    (advanceNo inp st).total_yes_cost = st.total_yes_cost ∧
    (advanceNo inp st).total_no_cost = st.total_no_cost ∧
    (advanceNo inp st).total_fees = st.total_fees ∧
    (advanceNo inp st).total_profit = st.total_profit := by
  unfold advanceNo
  split <;> exact ⟨rfl, rfl, rfl, rfl, rfl⟩

lemma advanceYes_no_side (inp : WalkInput) (st : WalkState) :
    (advanceYes inp st).no_idx = st.no_idx ∧
    (advanceYes inp st).no_remaining = st.no_remaining := by
  unfold advanceYes
  split <;> exact ⟨rfl, rfl⟩

lemma advanceNo_yes_idx (inp : WalkInput) (st : WalkState) :
    (advanceNo inp st).yes_idx = st.yes_idx := by
  unfold advanceNo
  split <;> rfl

lemma advanceYes_yes_idx_le (inp : WalkInput) (st : WalkState) :
    st.yes_idx ≤ (advanceYes inp st).yes_idx := by
  unfold advanceYes
  split <;> simp

lemma advanceNo_no_idx_le (inp : WalkInput) (st : WalkState) :
    st.no_idx ≤ (advanceNo inp st).no_idx := by
  unfold advanceNo
  split <;> simp

lemma advanceYes_yes_idx_of_le (inp : WalkInput) (st : WalkState)
    (h : st.yes_remaining ≤ 0) : (advanceYes inp st).yes_idx = st.yes_idx + 1 := by
  unfold advanceYes
  rw [if_pos h]

lemma advanceNo_no_idx_of_le (inp : WalkInput) (st : WalkState)
    (h : st.no_remaining ≤ 0) : (advanceNo inp st).no_idx = st.no_idx + 1 := by
  unfold advanceNo
  rw [if_pos h]

/-- After deducting `fill_amount = min(yes_remaining, no_remaining)`, at least
one remaining counter is (exactly) zero, so at least one cursor advances. -/
lemma accumulate_exhausts (inp : WalkInput) (st : WalkState) :
    (accumulate inp st).yes_remaining ≤ 0 ∨ (accumulate inp st).no_remaining ≤ 0 := by
  rcases min_choice st.yes_remaining st.no_remaining with h | h
  · left
    show st.yes_remaining - fillAmount st ≤ 0
    unfold fillAmount
    rw [← h]
    simp
  · right
    show st.no_remaining - fillAmount st ≤ 0
    unfold fillAmount
    rw [← h]
    simp

/-- A `.next` outcome strictly advances the cursor-index sum. -/
lemma walkStep_next_advances (inp : WalkInput) (st st' : WalkState)
    (h : walkStep inp st = .next st') :
    st.yes_idx + st.no_idx + 1 ≤ st'.yes_idx + st'.no_idx := by
  unfold walkStep at h
  split at h
  · exact absurd h (by simp)
  · split at h
    · exact absurd h (by simp)
    · split at h
      · exact absurd h (by simp)
      · have hst : st' = advanceNo inp (advanceYes inp (accumulate inp st)) :=
          (StepOut.next.injEq _ _).mp h.symm
        subst hst
        have hacc_yes : (accumulate inp st).yes_idx = st.yes_idx := rfl
        have hacc_no : (accumulate inp st).no_idx = st.no_idx := rfl
        rcases accumulate_exhausts inp st with hy | hn
        · have h1 := advanceYes_yes_idx_of_le inp (accumulate inp st) hy
          have h2 := advanceNo_yes_idx inp (advanceYes inp (accumulate inp st))
          have h3 := advanceNo_no_idx_le inp (advanceYes inp (accumulate inp st))
          have h4 := (advanceYes_no_side inp (accumulate inp st)).1
          omega
        · have h4 := (advanceYes_no_side inp (accumulate inp st)).2
          have h1 := advanceNo_no_idx_of_le inp (advanceYes inp (accumulate inp st))
            (by rw [h4]; exact hn)
          have h2 := advanceNo_yes_idx inp (advanceYes inp (accumulate inp st))
          have h3 := advanceYes_yes_idx_le inp (accumulate inp st)
          have h5 := (advanceYes_no_side inp (accumulate inp st)).1
          omega

/-- Case analysis of one loop-body execution: the body either `break`s
without touching any accumulator, or (when the fill is non-zero and the
marginal cost is strictly below 1.00) it adds exactly one level-pair fill to
every accumulator. -/
lemma walkStep_result (inp : WalkInput) (st : WalkState) :
    walkStep inp st = .stop st ∨
    (fillSize st ≠ 0 ∧ costPerContract inp st < 1 ∧
      ∃ st3, (walkStep inp st = .stop st3 ∨ walkStep inp st = .next st3) ∧
        st3.total_size = st.total_size + fillSize st ∧
        st3.total_yes_cost = st.total_yes_cost + yesPrice inp st * (fillSize st : ℚ) ∧
        st3.total_no_cost = st.total_no_cost + noPrice inp st * (fillSize st : ℚ) ∧
        st3.total_fees = st.total_fees + (yesFee inp st + noFee inp st) ∧
        st3.total_profit = st.total_profit +
          (1 - costPerContract inp st) * (fillSize st : ℚ)) := by
  by_cases h0 : fillSize st = 0
  · left
    unfold walkStep
    rw [if_pos h0]
  · by_cases h1 : 1 ≤ costPerContract inp st
    · left
      unfold walkStep
      rw [if_neg h0, if_pos h1]
    · right
      refine ⟨h0, not_le.mp h1, advanceNo inp (advanceYes inp (accumulate inp st)), ?_, ?_, ?_, ?_, ?_, ?_⟩
      · unfold walkStep
        rw [if_neg h0, if_neg h1]
        split
        · exact Or.inl rfl
        · exact Or.inr rfl
      · rw [(advanceNo_totals _ _).1, (advanceYes_totals _ _).1]; rfl
      · rw [(advanceNo_totals _ _).2.1, (advanceYes_totals _ _).2.1]; rfl
      · rw [(advanceNo_totals _ _).2.2.1, (advanceYes_totals _ _).2.2.1]; rfl
      · rw [(advanceNo_totals _ _).2.2.2.1, (advanceYes_totals _ _).2.2.2.1]; rfl
      · rw [(advanceNo_totals _ _).2.2.2.2, (advanceYes_totals _ _).2.2.2.2]; rfl

/-- Any property preserved by every loop-body execution is carried from the
initial state to whatever state the loop returns. -/
lemma walkLoop_inv (inp : WalkInput) (P : WalkState → Prop)
    (hstep : ∀ st st',
      (walkStep inp st = .stop st' ∨ walkStep inp st = .next st') → P st → P st') :
    ∀ fuel st st', walkLoop inp fuel st = some st' → P st → P st' := by
  intro fuel
  induction fuel with
  | zero =>
    intro st st' h hP
    unfold walkLoop at h
    split at h
    · exact absurd h (by simp)
    · rw [Option.some.injEq] at h
      rwa [← h]
  | succ n ih =>
    intro st st' h hP
    unfold walkLoop at h
    split at h
    · cases hw : walkStep inp st with
      | stop s2 =>
        rw [hw, Option.some.injEq] at h
        rw [← h]
        exact hstep st s2 (Or.inl hw) hP
      | next s2 =>
        rw [hw] at h
        exact ih s2 st' h (hstep st s2 (Or.inr hw) hP)
    · rw [Option.some.injEq] at h
      rwa [← h]

/-- Fuel sufficiency: fuel at least the remaining cursor budget never runs
out, because every continuing iteration advances at least one cursor. -/
lemma walkLoop_isSome (inp : WalkInput) :
    ∀ fuel st,
      inp.yes_asks.length + inp.no_asks.length - (st.yes_idx + st.no_idx) ≤ fuel →
      (walkLoop inp fuel st).isSome = true := by
  intro fuel
  induction fuel with
  | zero =>
    intro st hm
    unfold walkLoop
    split
    · rename_i hc
      obtain ⟨hy, hn⟩ := hc
      omega
    · rfl
  | succ n ih =>
    intro st hm
    unfold walkLoop
    split
    · rename_i hc
      obtain ⟨hy, hn⟩ := hc
      cases hw : walkStep inp st with
      | stop s2 => rfl
      | next s2 =>
        have hadv := walkStep_next_advances inp st s2 hw
        exact ih s2 (by omega)
    · rfl

/-! ### Accumulator invariants of the walk loop -/

/-- Conservation: the cost, fee and profit accumulators always sum to the
total size (each contract pays out exactly 1). -/
def consInv (st : WalkState) : Prop :=
  st.total_yes_cost + st.total_no_cost + st.total_fees + st.total_profit =
    (st.total_size : ℚ)

/-- Either nothing has been accumulated yet, or the accumulated size is
positive, the accumulated cost-plus-fees is strictly below the size, and the
accumulated profit is strictly positive. -/
def posInv (st : WalkState) : Prop :=
  (st.total_size = 0 ∧ st.total_yes_cost = 0 ∧ st.total_no_cost = 0 ∧
    st.total_fees = 0 ∧ st.total_profit = 0) ∨
  (0 < st.total_size ∧
    st.total_yes_cost + st.total_no_cost + st.total_fees < (st.total_size : ℚ) ∧
    0 < st.total_profit)

/-- The quantities one accumulation step adds: cost plus fee strictly below
the fill, and strictly positive profit. -/
lemma accum_bounds (inp : WalkInput) (st : WalkState)
    (h0 : fillSize st ≠ 0) (h1 : costPerContract inp st < 1) :
    yesPrice inp st * (fillSize st : ℚ) + noPrice inp st * (fillSize st : ℚ) +
      (yesFee inp st + noFee inp st) < (fillSize st : ℚ) ∧
    0 < (1 - costPerContract inp st) * (fillSize st : ℚ) := by
  have hfd : (0 : ℚ) < (fillSize st : ℚ) := by
    exact_mod_cast Nat.pos_of_ne_zero h0
  have hmul := mul_lt_mul_of_pos_right h1 hfd
  rw [one_mul] at hmul
  unfold costPerContract at hmul h1 ⊢
  rw [add_mul, add_mul, div_mul_cancel₀ _ (ne_of_gt hfd)] at hmul
  constructor
  · linarith
  · have : 0 < 1 - (yesPrice inp st + noPrice inp st +
        (yesFee inp st + noFee inp st) / (fillSize st : ℚ)) := by linarith
    exact mul_pos this hfd

lemma consInv_step (inp : WalkInput) (st st' : WalkState)
    (h : walkStep inp st = .stop st' ∨ walkStep inp st = .next st')
    (hI : consInv st) : consInv st' := by
  rcases walkStep_result inp st with heq | ⟨h0, h1, st3, hcase, hs, hyc, hnc, hf, hp⟩
  · rcases h with h | h
    · rw [heq, StepOut.stop.injEq] at h
      rwa [← h]
    · rw [heq] at h
      exact absurd h (by simp)
  · have hst : st' = st3 := by
      rcases h with h | h <;> rcases hcase with hc | hc <;> rw [h] at hc <;>
        first
        | exact (StepOut.stop.inj hc)
        | exact (StepOut.next.inj hc)
        | exact absurd hc (by simp)
  -- impossible cross cases are dismissed inside the combinator above
    subst hst
    unfold consInv at hI ⊢
    rw [hs, hyc, hnc, hf, hp]
    have hfd : ((fillSize st : ℚ)) ≠ 0 := Nat.cast_ne_zero.mpr h0
    unfold costPerContract
    push_cast
    field_simp
    linarith [hI]

lemma posInv_step (inp : WalkInput) (st st' : WalkState)
    (h : walkStep inp st = .stop st' ∨ walkStep inp st = .next st')
    (hI : posInv st) : posInv st' := by
  rcases walkStep_result inp st with heq | ⟨h0, h1, st3, hcase, hs, hyc, hnc, hf, hp⟩
  · rcases h with h | h
    · rw [heq, StepOut.stop.injEq] at h
      rwa [← h]
    · rw [heq] at h
      exact absurd h (by simp)
  · have hst : st' = st3 := by
      rcases h with h | h <;> rcases hcase with hc | hc <;> rw [h] at hc <;>
        first
        | exact (StepOut.stop.inj hc)
        | exact (StepOut.next.inj hc)
        | exact absurd hc (by simp)
    subst hst
    obtain ⟨hcost, hprofit⟩ := accum_bounds inp st h0 h1
    right
    refine ⟨by omega, ?_, ?_⟩
    · rw [hs, hyc, hnc, hf]
      push_cast
      rcases hI with ⟨e0, e1, e2, e3, -⟩ | ⟨-, hlt, -⟩
      · rw [e0, e1, e2, e3]
        push_cast
        linarith
      · linarith
    · rw [hp]
      rcases hI with ⟨-, -, -, -, e4⟩ | ⟨-, -, hpp⟩
      · rw [e4]
        linarith
      · linarith

/-- The state the walker finalizes always satisfies both accumulator
invariants (also in the dead fuel-exhaustion arm, which finalizes the
all-zero initial state). -/
lemma walk_result_cases (inp : WalkInput) :
    ∃ st, walk_orderbook_levels inp = finalizeWalk st ∧ consInv st ∧ posInv st := by
  have hinit_cons : consInv (initState inp) := by
    unfold consInv initState
    norm_num
  have hinit_pos : posInv (initState inp) := Or.inl ⟨rfl, rfl, rfl, rfl, rfl⟩
  unfold walk_orderbook_levels
  cases hl : walkLoop inp (inp.yes_asks.length + inp.no_asks.length) (initState inp) with
  | none => exact ⟨initState inp, rfl, hinit_cons, hinit_pos⟩
  | some st =>
    exact ⟨st, rfl,
      walkLoop_inv inp consInv (consInv_step inp) _ _ st hl hinit_cons,
      walkLoop_inv inp posInv (posInv_step inp) _ _ st hl hinit_pos⟩

lemma finalizeWalk_total_size (st : WalkState) :
    (finalizeWalk st).total_size = st.total_size := by
  unfold finalizeWalk
  split <;> rfl

lemma finalizeWalk_total_profit (st : WalkState) :
    (finalizeWalk st).total_profit = st.total_profit := by
  unfold finalizeWalk
  split <;> rfl

lemma finalizeWalk_total_fees (st : WalkState) :
    (finalizeWalk st).total_fees = st.total_fees := by
  unfold finalizeWalk
  split <;> rfl

lemma finalizeWalk_pos (st : WalkState) (h : 0 < st.total_size) :
    (finalizeWalk st).avg_yes_price = st.total_yes_cost / (st.total_size : ℚ) ∧
    (finalizeWalk st).avg_no_price = st.total_no_cost / (st.total_size : ℚ) ∧
    (finalizeWalk st).total_cost =
      st.total_yes_cost / (st.total_size : ℚ) + st.total_no_cost / (st.total_size : ℚ) +
        st.total_fees / (st.total_size : ℚ) := by
  unfold finalizeWalk
  rw [if_pos h]
  exact ⟨rfl, rfl, rfl⟩

lemma finalizeWalk_zero (st : WalkState) (h : ¬ 0 < st.total_size) :
    (finalizeWalk st).avg_yes_price = 0 ∧
    (finalizeWalk st).avg_no_price = 0 ∧
    (finalizeWalk st).total_cost = 0 := by
  unfold finalizeWalk
  rw [if_neg h]
  exact ⟨rfl, rfl, rfl⟩

/-! ### Concrete sample ladders (the spec's own test scenarios) -/

/-- YES ask 40c x 100 against NO ask 54c x 100: profitable. -/
def sampleProfitable : WalkInput :=
  ⟨[⟨40/100, 100⟩], [⟨54/100, 100⟩], .polymarket, .kalshi, 50⟩

/-- YES ask 55c x 100 against NO ask 50c x 100: cost already above 1.00. -/
def sampleUnprofitable : WalkInput :=
  ⟨[⟨55/100, 100⟩], [⟨50/100, 100⟩], .polymarket, .kalshi, 50⟩

/-! ### Claims about the depth walker -/

/-- C1 (payout conservation): for every walk result with positive total size,
`avg_yes_price * total_size + avg_no_price * total_size + total_fees +
total_profit` equals `total_size` exactly — each contract's cost components
plus profit sum to its $1.00 payout. -/
theorem payout_conservation (inp : WalkInput)
    (h : 0 < (walk_orderbook_levels inp).total_size) :
    (walk_orderbook_levels inp).avg_yes_price *
        ((walk_orderbook_levels inp).total_size : ℚ) +
      (walk_orderbook_levels inp).avg_no_price *
        ((walk_orderbook_levels inp).total_size : ℚ) +
      (walk_orderbook_levels inp).total_fees +
      (walk_orderbook_levels inp).total_profit =
      ((walk_orderbook_levels inp).total_size : ℚ) := by
  obtain ⟨st, heq, hc, -⟩ := walk_result_cases inp
  rw [heq] at h ⊢
  rw [finalizeWalk_total_size] at h
  obtain ⟨hay, han, -⟩ := finalizeWalk_pos st h
  rw [finalizeWalk_total_size, finalizeWalk_total_fees, finalizeWalk_total_profit,
    hay, han]
  have hn : ((st.total_size : ℚ)) ≠ 0 := Nat.cast_ne_zero.mpr (by omega)
  rw [div_mul_cancel₀ _ hn, div_mul_cancel₀ _ hn]
  exact hc

/-- Witness for C1 at the spec's profitable scenario. -/
theorem payout_conservation_witness :
    0 < (walk_orderbook_levels sampleProfitable).total_size ∧
    (walk_orderbook_levels sampleProfitable).avg_yes_price *
        ((walk_orderbook_levels sampleProfitable).total_size : ℚ) +
      (walk_orderbook_levels sampleProfitable).avg_no_price *
        ((walk_orderbook_levels sampleProfitable).total_size : ℚ) +
      (walk_orderbook_levels sampleProfitable).total_fees +
      (walk_orderbook_levels sampleProfitable).total_profit =
      ((walk_orderbook_levels sampleProfitable).total_size : ℚ) :=
  ⟨by with_unfolding_all decide,
    payout_conservation sampleProfitable (by with_unfolding_all decide)⟩

/-- C2 (greedy stop and cost bound): whenever the loop guard holds, the fill
is non-zero, and the marginal cost of the current level pair is at least
1.00, the loop returns immediately with the state unchanged (nothing is
accumulated from that level pair or any deeper level); consequently, when
the returned total size is positive the blended total cost is strictly
below 1.00. -/
theorem greedy_stop_and_cost_bound (inp : WalkInput) :
    (∀ fuel st, loopCond inp st → fillSize st ≠ 0 →
      1 ≤ costPerContract inp st →
      walkLoop inp (fuel + 1) st = some st) ∧
    (0 < (walk_orderbook_levels inp).total_size →
      (walk_orderbook_levels inp).total_cost < 1) := by
  constructor
  · intro fuel st hcond h0 h1
    have hw : walkStep inp st = .stop st := by
      unfold walkStep
      rw [if_neg h0, if_pos h1]
    unfold walkLoop
    rw [if_pos hcond, hw]
  · intro h
    obtain ⟨st, heq, -, hpos⟩ := walk_result_cases inp
    rw [heq] at h ⊢
    rw [finalizeWalk_total_size] at h
    rcases hpos with ⟨e0, -⟩ | ⟨-, hlt, -⟩
    · omega
    · obtain ⟨-, -, hcost⟩ := finalizeWalk_pos st h
      rw [hcost, div_add_div_same, div_add_div_same,
        div_lt_one (by exact_mod_cast h)]
      exact hlt

/-- Witness for C2: the unprofitable scenario stops at once with nothing
accumulated, and the profitable scenario has blended cost below 1.00. -/
theorem greedy_stop_and_cost_bound_witness :
    (loopCond sampleUnprofitable (initState sampleUnprofitable) ∧
      fillSize (initState sampleUnprofitable) ≠ 0 ∧
      1 ≤ costPerContract sampleUnprofitable (initState sampleUnprofitable) ∧
      walkLoop sampleUnprofitable 1 (initState sampleUnprofitable) =
        some (initState sampleUnprofitable)) ∧
    (0 < (walk_orderbook_levels sampleProfitable).total_size ∧
      (walk_orderbook_levels sampleProfitable).total_cost < 1) :=
  ⟨⟨by with_unfolding_all decide, by with_unfolding_all decide,
      by with_unfolding_all decide,
      (greedy_stop_and_cost_bound sampleUnprofitable).1 0 _
        (by with_unfolding_all decide) (by with_unfolding_all decide)
        (by with_unfolding_all decide)⟩,
    ⟨by with_unfolding_all decide,
      (greedy_stop_and_cost_bound sampleProfitable).2
        (by with_unfolding_all decide)⟩⟩

/-- C3 (degenerate-arithmetic guard): whenever the walker returns
`total_size = 0`, the returned averages and blended cost are all exactly
zero — the `total_size > 0` guard keeps the division from ever being
evaluated on zero. -/
theorem zero_size_zero_averages (inp : WalkInput)
    (h : (walk_orderbook_levels inp).total_size = 0) :
    (walk_orderbook_levels inp).avg_yes_price = 0 ∧
    (walk_orderbook_levels inp).avg_no_price = 0 ∧
    (walk_orderbook_levels inp).total_cost = 0 := by
  obtain ⟨st, heq, -, -⟩ := walk_result_cases inp
  rw [heq] at h ⊢
  rw [finalizeWalk_total_size] at h
  exact finalizeWalk_zero st (by omega)

/-- Witness for C3 at the spec's unprofitable scenario. -/
theorem zero_size_zero_averages_witness :
    (walk_orderbook_levels sampleUnprofitable).total_size = 0 ∧
    ((walk_orderbook_levels sampleUnprofitable).avg_yes_price = 0 ∧
      (walk_orderbook_levels sampleUnprofitable).avg_no_price = 0 ∧
      (walk_orderbook_levels sampleUnprofitable).total_cost = 0) :=
  ⟨by with_unfolding_all decide,
    zero_size_zero_averages sampleUnprofitable (by with_unfolding_all decide)⟩

/-- C9 (termination bounded by ladder depth): the walk loop, given fuel
equal to `yes_asks.length + no_asks.length`, always runs to completion
(never exhausts the fuel) — every continuing iteration strictly advances at
least one ladder cursor. -/
theorem walker_terminates_within_ladder_depth (inp : WalkInput) :
    (walkLoop inp (inp.yes_asks.length + inp.no_asks.length)
      (initState inp)).isSome = true :=
  walkLoop_isSome inp _ (initState inp) (Nat.sub_le _ _)

/-- C10 (implicit): whenever the walker returns positive total size it also
returns strictly positive total profit, so the emission condition
`total_size > 0 ∧ total_profit > 0` is decided by `total_size` alone. -/
theorem positive_size_implies_positive_profit (inp : WalkInput)
    (h : 0 < (walk_orderbook_levels inp).total_size) :
    0 < (walk_orderbook_levels inp).total_profit := by
  obtain ⟨st, heq, -, hpos⟩ := walk_result_cases inp
  rw [heq] at h ⊢
  rw [finalizeWalk_total_size] at h
  rw [finalizeWalk_total_profit]
  rcases hpos with ⟨e0, -⟩ | ⟨-, -, hpp⟩
  · omega
  · exact hpp

/-- Witness for C10 at the spec's profitable scenario. -/
theorem positive_size_implies_positive_profit_witness :
    0 < (walk_orderbook_levels sampleProfitable).total_size ∧
    0 < (walk_orderbook_levels sampleProfitable).total_profit :=
  ⟨by with_unfolding_all decide,
    positive_size_implies_positive_profit sampleProfitable
      (by with_unfolding_all decide)⟩

/-! ### Book derivation -/

/-- The pointwise complement map on a ladder: level (p, s) becomes level
(1 - p, s). -/
def derive_ladder (bids : List Level) : List Level :=
  bids.map (fun l => ⟨1 - l.price, l.amount⟩)

/-- `derive_no_asks`: derive NO ask levels from a YES orderbook's bid side
(source lines 53-60). -/
def derive_no_asks (yes_book : OrderBook) : List Level :=
  derive_ladder yes_book.bids

/-- C4 (book derivation correctness): `derive_no_asks` maps every YES bid
level (p, s) pointwise to a NO ask level (1-p, s) preserving order and
sizes; a strictly descending bid ladder yields a strictly ascending ask
ladder; and applying the pointwise price map twice is the identity on
prices. -/
theorem derive_no_asks_correct (book : OrderBook)
    (hdesc : book.bids.Pairwise (fun a b => b.price < a.price)) :
    (∀ i : ℕ, (derive_no_asks book)[i]? =
        (book.bids[i]?).map (fun l => ⟨1 - l.price, l.amount⟩)) ∧
    (derive_no_asks book).Pairwise (fun a b => a.price < b.price) ∧
    (derive_ladder (derive_no_asks book)).map Level.price =
      book.bids.map Level.price := by
  refine ⟨?_, ?_, ?_⟩
  · intro i
    simp [derive_no_asks, derive_ladder]
  · unfold derive_no_asks derive_ladder
    rw [List.pairwise_map]
    exact hdesc.imp (fun h => by simpa using h)
  · unfold derive_no_asks derive_ladder
    rw [List.map_map, List.map_map]
    apply List.map_congr_left
    intro l _
    simp

/-- Witness for C4 at the doc-comment ladder [0.55x100, 0.52x200,
0.50x150]. -/
theorem derive_no_asks_correct_witness :
    (OrderBook.bids ⟨1, [⟨55/100, 100⟩, ⟨52/100, 200⟩, ⟨50/100, 150⟩],
        [⟨57/100, 50⟩]⟩).Pairwise (fun a b => b.price < a.price) ∧
    ((∀ i : ℕ, (derive_no_asks ⟨1, [⟨55/100, 100⟩, ⟨52/100, 200⟩,
          ⟨50/100, 150⟩], [⟨57/100, 50⟩]⟩)[i]? =
        ((OrderBook.bids ⟨1, [⟨55/100, 100⟩, ⟨52/100, 200⟩, ⟨50/100, 150⟩],
          [⟨57/100, 50⟩]⟩)[i]?).map (fun l => ⟨1 - l.price, l.amount⟩)) ∧
      (derive_no_asks ⟨1, [⟨55/100, 100⟩, ⟨52/100, 200⟩, ⟨50/100, 150⟩],
        [⟨57/100, 50⟩]⟩).Pairwise (fun a b => a.price < b.price) ∧
      (derive_ladder (derive_no_asks ⟨1, [⟨55/100, 100⟩, ⟨52/100, 200⟩,
          ⟨50/100, 150⟩], [⟨57/100, 50⟩]⟩)).map Level.price =
        (OrderBook.bids ⟨1, [⟨55/100, 100⟩, ⟨52/100, 200⟩, ⟨50/100, 150⟩],
          [⟨57/100, 50⟩]⟩).map Level.price) :=
  ⟨by with_unfolding_all decide,
    derive_no_asks_correct _ (by with_unfolding_all decide)⟩

/-! ### Correlation model, config, and the opportunity data type -/

/-- `correlation::PredictionMarketKey`: unique identity of one tradable
orderbook — exchange, market identifier, outcome side. -/
structure PredictionMarketKey where
  exchange : ExchangeId
  market_id : String
  outcome : Outcome
deriving DecidableEq, Repr

/-- `PredictionMarketKey::kalshi_yes`. -/
def PredictionMarketKey.kalshi_yes (ticker : String) : PredictionMarketKey :=
  ⟨.kalshi, ticker, .yes⟩

/-- `PredictionMarketKey::kalshi_no`. -/
def PredictionMarketKey.kalshi_no (ticker : String) : PredictionMarketKey :=
  ⟨.kalshi, ticker, .no⟩

/-- `PredictionMarketKey::polymarket_yes`. -/
def PredictionMarketKey.polymarket_yes (token_id : String) : PredictionMarketKey :=
  ⟨.polymarket, token_id, .yes⟩

/-- `PredictionMarketKey::polymarket_no`. -/
def PredictionMarketKey.polymarket_no (token_id : String) : PredictionMarketKey :=
  ⟨.polymarket, token_id, .no⟩

/-- `correlation::CorrelatedPair`.  The `expiry` timestamp is modelled in
whole seconds (chrono `DateTime<Utc>` has subsecond precision, which the
day-count truncation below makes irrelevant at day granularity). -/
structure CorrelatedPair where
  kalshi_ticker : String
  polymarket_condition_id : String
  polymarket_yes_token : String
  polymarket_no_token : String
  description : String
  expiry : ℤ
  inverse : Bool
deriving DecidableEq, Repr

/-- `CorrelatedPair::is_expired`: `expiry <= now`.  `Utc::now()` is passed
explicitly as `now`. -/
def CorrelatedPair.is_expired (p : CorrelatedPair) (now : ℤ) : Bool :=
  decide (p.expiry ≤ now)

/-- `CorrelatedPair::days_to_expiry`: `(expiry - now).num_days()` — whole
days, truncated toward zero exactly as chrono's `num_days`. -/
def CorrelatedPair.days_to_expiry (p : CorrelatedPair) (now : ℤ) : ℤ :=
  Int.tdiv (p.expiry - now) 86400

/-- `config::MinOrderValues`. -/
structure MinOrderValues where
  kalshi : ℚ
  polymarket : ℚ
deriving DecidableEq, Repr

/-- `config::ArbitrageConfig`. -/
structure ArbitrageConfig where
  min_spread_threshold : ℚ
  max_position_per_market : ℕ
  max_total_capital : ℚ
  min_order_value : MinOrderValues
  max_days_to_expiry : Option ℕ
deriving DecidableEq, Repr

/-- Modelled from the spec: the delta-neutral variant of the `opportunity`
module (the one `strategy.rs` constructs and the integration tests exercise)
is not under the sources — only the superseded single-leg variant is.  The
two directions are the ones `strategy.rs` constructs. -/
inductive ArbitrageDirection where
  | yesPolyNoKalshi
  | yesKalshiNoPoly
deriving DecidableEq, Repr

/-- Modelled from the spec: one `OrderSide` per outcome leg — venue,
instrument key, outcome, price, size (spec §3); constructors
`OrderSide::poly` / `OrderSide::kalshi` as called from `strategy.rs`. -/
structure OrderSide where
  exchange : ExchangeId
  instrument : PredictionMarketKey
  outcome : Outcome
  price : ℚ
  available_size : ℕ
deriving DecidableEq, Repr

/-- `OrderSide::poly(token_id, outcome, price, size)`. -/
def OrderSide.poly (token_id : String) (outcome : Outcome) (price : ℚ)
    (size : ℕ) : OrderSide :=
  ⟨.polymarket, ⟨.polymarket, token_id, outcome⟩, outcome, price, size⟩

/-- `OrderSide::kalshi(ticker, outcome, price, size)`. -/
def OrderSide.kalshi (ticker : String) (outcome : Outcome) (price : ℚ)
    (size : ℕ) : OrderSide :=
  ⟨.kalshi, ⟨.kalshi, ticker, outcome⟩, outcome, price, size⟩

/-- `OrderSide::order_value`: `price * size`. -/
def OrderSide.order_value (s : OrderSide) : ℚ :=
  s.price * (s.available_size : ℚ)

/-- The delta-neutral `ArbitrageOpportunity`, with exactly the fields
`strategy.rs` constructs (source lines 358-379 etc.). -/
structure ArbitrageOpportunity where
  pair : CorrelatedPair
  direction : ArbitrageDirection
  yes_side : OrderSide
  no_side : OrderSide
  total_cost : ℚ
  avg_yes_price : ℚ
  avg_no_price : ℚ
  max_contracts : ℕ
  expected_profit : ℚ
  total_fees : ℚ
deriving DecidableEq, Repr

/-- Modelled from the spec: filter (a) — `profitPerContract =
expectedProfit / maxContracts ≥ minProfitThreshold` (spec §4.5 step 3a). -/
def ArbitrageOpportunity.meets_threshold (opp : ArbitrageOpportunity)
    (min_spread : ℚ) : Bool :=
  decide (min_spread ≤ opp.expected_profit / (opp.max_contracts : ℚ))

/-- Modelled from the spec: filter (b) — `expectedProfit > 0`. -/
def ArbitrageOpportunity.is_profitable (opp : ArbitrageOpportunity) : Bool :=
  decide (0 < opp.expected_profit)

/-- `PredictionArbitrageStrategy`: id, config, monitored pairs, Polymarket
fee bps, and the instrument-index map (the `HashMap` is modelled as its
lookup function).  The `order_counter` cell is passed explicitly where
needed. -/
structure Strategy where
  id : String
  config : ArbitrageConfig
  pairs : List CorrelatedPair
  poly_fee_bps : ℕ
  instrument_index : PredictionMarketKey → Option (ℕ × ℕ)

/-! ### Opportunity detection -/

/-- The direction-1 push (source lines 357-380 / 428-451): emit one
opportunity when the walk found positive size and positive profit.  In the
inverse case the Kalshi leg carries the literal YES outcome label. -/
def direction1_opportunities (pair : CorrelatedPair) (kalshi_outcome : Outcome)
    (result : WalkResult) : List ArbitrageOpportunity :=
  if 0 < result.total_size ∧ 0 < result.total_profit then
    [{ pair := pair
       direction := .yesPolyNoKalshi
       yes_side := OrderSide.poly pair.polymarket_yes_token .yes
         result.avg_yes_price result.total_size
       no_side := OrderSide.kalshi pair.kalshi_ticker kalshi_outcome
         result.avg_no_price result.total_size
       total_cost := result.total_cost
       avg_yes_price := result.avg_yes_price
       avg_no_price := result.avg_no_price
       max_contracts := result.total_size
       expected_profit := result.total_profit
       total_fees := result.total_fees }]
  else []

/-- The direction-2 push (source lines 392-415 / 462-485).  In the inverse
case the Kalshi leg carries the literal NO outcome label. -/
def direction2_opportunities (pair : CorrelatedPair) (kalshi_outcome : Outcome)
    (result : WalkResult) : List ArbitrageOpportunity :=
  if 0 < result.total_size ∧ 0 < result.total_profit then
    [{ pair := pair
       direction := .yesKalshiNoPoly
       yes_side := OrderSide.kalshi pair.kalshi_ticker kalshi_outcome
         result.avg_yes_price result.total_size
       no_side := OrderSide.poly pair.polymarket_no_token .no
         result.avg_no_price result.total_size
       total_cost := result.total_cost
       avg_yes_price := result.avg_yes_price
       avg_no_price := result.avg_no_price
       max_contracts := result.total_size
       expected_profit := result.total_profit
       total_fees := result.total_fees }]
  else []

/-- `check_pair_for_arbitrage` (source lines 318-489): return early with no
opportunities when either venue's YES book is absent; derive NO asks from
YES bids; walk both directions, honouring the `inverse` flag. -/
def check_pair_for_arbitrage (strat : Strategy)
    (books : PredictionMarketKey → Option OrderBook)
    (pair : CorrelatedPair) : List ArbitrageOpportunity :=
  match books (PredictionMarketKey.polymarket_yes pair.polymarket_yes_token) with
  | none => []
  | some poly_yes_book =>
    match books (PredictionMarketKey.kalshi_yes pair.kalshi_ticker) with
    | none => []
    | some kalshi_yes_book =>
      if pair.inverse then
        direction1_opportunities pair .yes
          (walk_orderbook_levels ⟨poly_yes_book.asks, kalshi_yes_book.asks,
            .polymarket, .kalshi, strat.poly_fee_bps⟩) ++
        direction2_opportunities pair .no
          (walk_orderbook_levels ⟨derive_no_asks kalshi_yes_book,
            derive_no_asks poly_yes_book, .kalshi, .polymarket,
            strat.poly_fee_bps⟩)
      else
        direction1_opportunities pair .no
          (walk_orderbook_levels ⟨poly_yes_book.asks,
            derive_no_asks kalshi_yes_book, .polymarket, .kalshi,
            strat.poly_fee_bps⟩) ++
        direction2_opportunities pair .yes
          (walk_orderbook_levels ⟨kalshi_yes_book.asks,
            derive_no_asks poly_yes_book, .kalshi, .polymarket,
            strat.poly_fee_bps⟩)

/-- `detect_opportunities` (source lines 297-312): drop expired pairs, drop
pairs beyond the configured days-to-expiry, check the rest. -/
def detect_opportunities (strat : Strategy) (now : ℤ)
    (books : PredictionMarketKey → Option OrderBook) :
    List ArbitrageOpportunity :=
  ((strat.pairs.filter (fun p => ! p.is_expired now)).filter (fun p =>
      match strat.config.max_days_to_expiry with
      | some m => decide (p.days_to_expiry now ≤ (m : ℤ))
      | none => true)).flatMap
    (fun p => check_pair_for_arbitrage strat books p)

lemma direction1_pair_eq (pair : CorrelatedPair) (o : Outcome)
    (result : WalkResult) (opp : ArbitrageOpportunity)
    (h : opp ∈ direction1_opportunities pair o result) : opp.pair = pair := by
  unfold direction1_opportunities at h
  split at h
  · rw [List.mem_singleton] at h
    rw [h]
  · exact absurd h (List.not_mem_nil opp)

lemma direction2_pair_eq (pair : CorrelatedPair) (o : Outcome)
    (result : WalkResult) (opp : ArbitrageOpportunity)
    (h : opp ∈ direction2_opportunities pair o result) : opp.pair = pair := by
  unfold direction2_opportunities at h
  split at h
  · rw [List.mem_singleton] at h
    rw [h]
  · exact absurd h (List.not_mem_nil opp)

/-- Every opportunity produced for a pair carries that pair. -/
lemma check_pair_pair_eq (strat : Strategy)
    (books : PredictionMarketKey → Option OrderBook) (p : CorrelatedPair)
    (opp : ArbitrageOpportunity)
    (h : opp ∈ check_pair_for_arbitrage strat books p) : opp.pair = p := by
  unfold check_pair_for_arbitrage at h
  split at h
  · exact absurd h (List.not_mem_nil opp)
  · split at h
    · exact absurd h (List.not_mem_nil opp)
    · split at h <;>
        rcases List.mem_append.mp h with h1 | h1 <;>
        first
        | exact direction1_pair_eq _ _ _ _ h1
        | exact direction2_pair_eq _ _ _ _ h1

/-- C5 (transient absence degrades to no opportunity): if a pair is expired,
or its days-to-expiry exceeds the configured maximum, or either venue's YES
orderbook is absent from the cycle's snapshot map, then the detection cycle
produces no opportunity carrying that pair — and, being a total function, it
returns normally without raising any error. -/
theorem transient_absence_no_opportunity (strat : Strategy) (now : ℤ)
    (books : PredictionMarketKey → Option OrderBook) (pair : CorrelatedPair)
    (habsent :
      pair.is_expired now = true ∨
      (∃ m, strat.config.max_days_to_expiry = some m ∧
        (m : ℤ) < pair.days_to_expiry now) ∨
      books (PredictionMarketKey.polymarket_yes pair.polymarket_yes_token) = none ∨
      books (PredictionMarketKey.kalshi_yes pair.kalshi_ticker) = none) :
    ∀ opp ∈ detect_opportunities strat now books, opp.pair ≠ pair := by
  intro opp hmem hcontra
  unfold detect_opportunities at hmem
  rw [List.mem_flatMap] at hmem
  obtain ⟨p, hp, hin⟩ := hmem
  have hpp : p = pair := by
    rw [← hcontra, check_pair_pair_eq strat books p opp hin]
  subst hpp
  rw [List.mem_filter] at hp
  obtain ⟨hp1, hp2⟩ := hp
  rw [List.mem_filter] at hp1
  obtain ⟨-, hnotexp⟩ := hp1
  rcases habsent with hexp | ⟨m, hm, hdays⟩ | hnone | hnone
  · rw [hexp] at hnotexp
    exact absurd hnotexp (by simp)
  · rw [hm] at hp2
    rw [decide_eq_true_eq] at hp2
    omega
  · unfold check_pair_for_arbitrage at hin
    rw [hnone] at hin
    exact absurd hin (List.not_mem_nil opp)
  · unfold check_pair_for_arbitrage at hin
    rw [hnone] at hin
    cases hb : books (PredictionMarketKey.polymarket_yes p.polymarket_yes_token) with
    | none =>
      rw [hb] at hin
      exact absurd hin (List.not_mem_nil opp)
    | some b =>
      rw [hb] at hin
      exact absurd hin (List.not_mem_nil opp)

/-- A concrete expired pair used by the C5 witness. -/
def expiredPair : CorrelatedPair :=
  ⟨"KXTEST", "0xcondition", "0xyes", "0xno", "Test market", 0, false⟩

/-- A concrete single-pair strategy used by the C5 witness. -/
def sampleStrategy : Strategy :=
  { id := "test-arb"
    config :=
      { min_spread_threshold := 2/100
        max_position_per_market := 1000
        max_total_capital := 10000
        min_order_value := ⟨0, 1⟩
        max_days_to_expiry := some 90 }
    pairs := [expiredPair]
    poly_fee_bps := 50
    instrument_index := fun _ => none }

/-- Witness for C5: an expired pair (expiry 0, now 86400) yields no
opportunity carrying it. -/
theorem transient_absence_no_opportunity_witness :
    (expiredPair.is_expired 86400 = true ∨
      (∃ m, sampleStrategy.config.max_days_to_expiry = some m ∧
        (m : ℤ) < expiredPair.days_to_expiry 86400) ∨
      (fun _ : PredictionMarketKey => (none : Option OrderBook))
        (PredictionMarketKey.polymarket_yes expiredPair.polymarket_yes_token) = none ∨
      (fun _ : PredictionMarketKey => (none : Option OrderBook))
        (PredictionMarketKey.kalshi_yes expiredPair.kalshi_ticker) = none) ∧
    (∀ opp ∈ detect_opportunities sampleStrategy 86400 (fun _ => none),
      opp.pair ≠ expiredPair) :=
  ⟨Or.inl (by with_unfolding_all decide),
    transient_absence_no_opportunity sampleStrategy 86400 (fun _ => none)
      expiredPair (Or.inl (by with_unfolding_all decide))⟩

/-! ### Filtering pipeline and order emission -/

/-- The per-venue minimum order value selected in
`passes_min_order_values` (source lines 496-505). -/
def min_order_value_for (cfg : ArbitrageConfig) (e : ExchangeId) : ℚ :=
  match e with
  | .polymarket => cfg.min_order_value.polymarket
  | .kalshi => cfg.min_order_value.kalshi
  | .other => 0

/-- `passes_min_order_values` (source lines 492-508):
`yes_value >= yes_min && no_value >= no_min`. -/
def passes_min_order_values (strat : Strategy)
    (opp : ArbitrageOpportunity) : Bool :=
  decide (min_order_value_for strat.config opp.yes_side.exchange ≤
      opp.yes_side.order_value) &&
    decide (min_order_value_for strat.config opp.no_side.exchange ≤
      opp.no_side.order_value)

/-- `passes_position_limits` (source lines 511-517):
`max_contracts <= config.max_position_per_market`. -/
def passes_position_limits (strat : Strategy)
    (opp : ArbitrageOpportunity) : Bool :=
  decide (opp.max_contracts ≤ strat.config.max_position_per_market)

/-- The filter chain of `generate_algo_orders` (source lines 605-611), in
source order. -/
def valid_opportunities (strat : Strategy)
    (opportunities : List ArbitrageOpportunity) : List ArbitrageOpportunity :=
  (((opportunities.filter
      (fun o => o.meets_threshold strat.config.min_spread_threshold)).filter
    (fun o => o.is_profitable)).filter
    (fun o => passes_position_limits strat o)).filter
    (fun o => passes_min_order_values strat o)

/-- C6 (filtering pipeline): a detected opportunity survives to emission if
and only if (a) its profit per contract meets the configured minimum
threshold, (b) its expected profit is positive, (c) its contract count is
within the position limit, and (d) each leg's order value meets that leg's
venue-specific minimum; in particular an opportunity whose `max_contracts`
exceeds the limit is excluded however profitable. -/
theorem filtering_pipeline (strat : Strategy)
    (opportunities : List ArbitrageOpportunity) (opp : ArbitrageOpportunity) :
    opp ∈ valid_opportunities strat opportunities ↔
      (opp ∈ opportunities ∧
        strat.config.min_spread_threshold ≤
          opp.expected_profit / (opp.max_contracts : ℚ) ∧
        0 < opp.expected_profit ∧
        opp.max_contracts ≤ strat.config.max_position_per_market ∧
        min_order_value_for strat.config opp.yes_side.exchange ≤
          opp.yes_side.order_value ∧
        min_order_value_for strat.config opp.no_side.exchange ≤
          opp.no_side.order_value) := by
  unfold valid_opportunities passes_position_limits passes_min_order_values
    ArbitrageOpportunity.meets_threshold ArbitrageOpportunity.is_profitable
  simp only [List.mem_filter, Bool.and_eq_true, decide_eq_true_eq]
  tauto

/-- `Side::Buy` / `Side::Sell` (barter_instrument). -/
inductive Side where
  | buy
  | sell
deriving DecidableEq, Repr

/-- `OrderKind` (barter_execution), restricted to the variants this strategy
can emit or compare against. -/
inductive OrderKind where
  | limit
  | market
deriving DecidableEq, Repr

/-- `TimeInForce` (barter_execution), restricted likewise. -/
inductive TimeInForce where
  | immediateOrCancel
  | goodUntilCancelled
deriving DecidableEq, Repr

/-- `OrderRequestOpen` with its `OrderKey` flattened: venue handle,
instrument handle, strategy id, client order id, and the `RequestOpen`
fields. -/
structure OrderRequestOpen where
  exchange : ℕ
  instrument : ℕ
  strategy : String
  cid : String
  side : Side
  price : ℚ
  quantity : ℚ
  kind : OrderKind
  time_in_force : TimeInForce
deriving DecidableEq, Repr

/-- `next_order_id` (source lines 290-294): increment the counter and format
`"{strategy_id}_{counter}"`.  The counter cell is passed explicitly. -/
def next_order_id (strat : Strategy) (counter : ℕ) : String :=
  strat.id ++ "_" ++ toString (counter + 1)

/-- `generate_order_pair` (source lines 520-584): resolve both legs in the
instrument index; if either is missing return no orders at all; otherwise
two BUY limit IOC orders priced at each leg's volume-weighted average fill
price with quantity `max_contracts`. -/
def generate_order_pair (strat : Strategy) (counter : ℕ)
    (opp : ArbitrageOpportunity) : List OrderRequestOpen :=
  match strat.instrument_index opp.yes_side.instrument with
  | none => []
  | some yes_indices =>
    match strat.instrument_index opp.no_side.instrument with
    | none => []
    | some no_indices =>
      [{ exchange := yes_indices.1
         instrument := yes_indices.2
         strategy := strat.id
         cid := next_order_id strat counter
         side := .buy
         price := opp.avg_yes_price
         quantity := (opp.max_contracts : ℚ)
         kind := .limit
         time_in_force := .immediateOrCancel },
       { exchange := no_indices.1
         instrument := no_indices.2
         strategy := strat.id
         cid := next_order_id strat (counter + 1)
         side := .buy
         price := opp.avg_no_price
         quantity := (opp.max_contracts : ℚ)
         kind := .limit
         time_in_force := .immediateOrCancel }]

/-- C7 (emission atomicity and order shape): order generation returns
exactly zero or exactly two requests — zero precisely when either leg's
instrument key cannot be resolved (never one leg without its hedge), and
otherwise two BUY limit immediate-or-cancel requests with quantity
`max_contracts`, priced at each leg's volume-weighted average fill price. -/
theorem emission_atomicity (strat : Strategy) (counter : ℕ)
    (opp : ArbitrageOpportunity) :
    (generate_order_pair strat counter opp = [] ↔
      (strat.instrument_index opp.yes_side.instrument = none ∨
        strat.instrument_index opp.no_side.instrument = none)) ∧
    (generate_order_pair strat counter opp = [] ∨
      ∃ o1 o2, generate_order_pair strat counter opp = [o1, o2] ∧
        o1.side = .buy ∧ o2.side = .buy ∧
        o1.kind = .limit ∧ o2.kind = .limit ∧
        o1.time_in_force = .immediateOrCancel ∧
        o2.time_in_force = .immediateOrCancel ∧
        o1.quantity = (opp.max_contracts : ℚ) ∧
        o2.quantity = (opp.max_contracts : ℚ) ∧
        o1.price = opp.avg_yes_price ∧ o2.price = opp.avg_no_price) := by
  unfold generate_order_pair
  cases h1 : strat.instrument_index opp.yes_side.instrument with
  | none => simp
  | some yi =>
    cases h2 : strat.instrument_index opp.no_side.instrument with
    | none => simp
    | some ni =>
      constructor
      · simp
      · right
        exact ⟨_, _, rfl, rfl, rfl, rfl, rfl, rfl, rfl, rfl, rfl, rfl, rfl⟩

/-! ### Kalshi dual-outcome L2 book -/

/-- `KalshiOrderbookSnapshotData`: per-side level lists of (cent price,
quantity); quantities are `u32` on the wire, modelled as `ℕ`. -/
structure KalshiOrderbookSnapshotData where
  market_ticker : String
  yes : List (ℕ × ℕ)
  no : List (ℕ × ℕ)
deriving DecidableEq, Repr

/-- `KalshiOrderbookSnapshot`. -/
structure KalshiOrderbookSnapshot where
  sid : ℕ
  seq : ℕ
  msg : KalshiOrderbookSnapshotData
deriving DecidableEq, Repr

/-- `KalshiOrderbookDeltaData`: a signed quantity adjustment at one cent
level of one side. -/
structure KalshiOrderbookDeltaData where
  market_ticker : String
  price : ℕ
  delta : ℤ
  side : String
deriving DecidableEq, Repr

/-- `KalshiOrderbookDelta`. -/
structure KalshiOrderbookDelta where
  sid : ℕ
  seq : ℕ
  msg : KalshiOrderbookDeltaData
deriving DecidableEq, Repr

/-- `KalshiOrderBook`: both sides as maps from integer cent price to
quantity.  The `BTreeMap<u32, u32>` is modelled by its lookup function
(insert and remove become pointwise updates, exactly the observable map
semantics). -/
structure KalshiOrderBook where
  yes : ℕ → Option ℕ
  no : ℕ → Option ℕ
  seq : ℕ
  last_update : Option String

/-- One insertion of `from_snapshot`'s loops (source lines 45-54): insert
the level only when its quantity is positive. -/
def loadStep (m : ℕ → Option ℕ) (pa : ℕ × ℕ) : ℕ → Option ℕ :=
  if 0 < pa.2 then fun x => if x = pa.1 then some pa.2 else m x else m

/-- Load one side of a snapshot into an empty map. -/
def loadSide (entries : List (ℕ × ℕ)) : ℕ → Option ℕ :=
  entries.foldl loadStep (fun _ => none)

/-- `KalshiOrderBook::from_snapshot` (source lines 41-62). -/
def KalshiOrderBook.from_snapshot (s : KalshiOrderbookSnapshot) :
    KalshiOrderBook :=
  { yes := loadSide s.msg.yes
    no := loadSide s.msg.no
    seq := s.seq
    last_update := none }

/-- Reduction into the `i32` range `[-2^31, 2^31)` by two's complement:
this is what the source's `as i32` cast does to any `u32` value, and what
`i32` addition does on overflow when overflow checks are off.  On values
already in range it is the identity.  (Kept irreducible so that unifier
reduction never descends into the modulus arithmetic; proofs unfold it
explicitly.) -/
@[irreducible] def wrap_i32 (n : ℤ) : ℤ :=
  (n + 2147483648) % 4294967296 - 2147483648

/-- The side update of `apply_delta` (source lines 72-80): read the current
quantity (absent = 0), push it through the wrapping `u32 -> i32` cast, add
the signed delta in `i32` arithmetic, clamp at zero, and reinterpret as
`u32` (`(current_size as i32 + delta).max(0) as u32`); remove the level
when the result is zero, otherwise store it.  For stored quantities at
least `2^31` the cast wraps, so the computed quantity is not the
mathematical sum. -/
def applySideDelta (m : ℕ → Option ℕ) (price : ℕ) (delta : ℤ) :
    ℕ → Option ℕ :=
  if (max (wrap_i32 (wrap_i32 ((m price).getD 0 : ℤ) + delta)) 0).toNat = 0 then
    fun x => if x = price then none else m x
  else
    fun x =>
      if x = price then
        some (max (wrap_i32 (wrap_i32 ((m price).getD 0 : ℤ) + delta)) 0).toNat
      else m x

/-- `KalshiOrderBook::apply_delta` (source lines 65-83): select the side by
its wire string; any other side string leaves the book untouched (including
its sequence number). -/
def KalshiOrderBook.apply_delta (b : KalshiOrderBook)
    (d : KalshiOrderbookDelta) : KalshiOrderBook :=
  if d.msg.side = "yes" then
    { b with yes := applySideDelta b.yes d.msg.price d.msg.delta, seq := d.seq }
  else if d.msg.side = "no" then
    { b with no := applySideDelta b.no d.msg.price d.msg.delta, seq := d.seq }
  else b

/-- `KalshiOrderBook::clear` (source lines 86-89). -/
def KalshiOrderBook.clear (b : KalshiOrderBook) : KalshiOrderBook :=
  { b with yes := fun _ => none, no := fun _ => none }

/-- Every stored level of one side has strictly positive quantity. -/
def sidePositive (m : ℕ → Option ℕ) : Prop :=
  ∀ p q, m p = some q → 0 < q

/-- The book-level invariant: both sides store only positive quantities. -/
def KalshiOrderBook.levelsPositive (b : KalshiOrderBook) : Prop :=
  sidePositive b.yes ∧ sidePositive b.no

lemma loadStep_positive (m : ℕ → Option ℕ) (pa : ℕ × ℕ)
    (hm : sidePositive m) : sidePositive (loadStep m pa) := by
  unfold loadStep
  split
  · intro p q hpq
    rename_i hpos
    simp only [] at hpq
    by_cases hp : p = pa.1
    · rw [if_pos hp, Option.some.injEq] at hpq
      omega
    · rw [if_neg hp] at hpq
      exact hm p q hpq
  · exact hm

lemma loadSide_positive_aux (entries : List (ℕ × ℕ)) :
    ∀ m : ℕ → Option ℕ, sidePositive m →
      sidePositive (entries.foldl loadStep m) := by
  induction entries with
  | nil => intro m hm; exact hm
  | cons a tl ih =>
    intro m hm
    exact ih (loadStep m a) (loadStep_positive m a hm)

lemma loadSide_positive (entries : List (ℕ × ℕ)) :
    sidePositive (loadSide entries) :=
  loadSide_positive_aux entries (fun _ => none) (fun p q h => by
    exact absurd h (by simp))

lemma applySideDelta_positive (m : ℕ → Option ℕ) (price : ℕ) (delta : ℤ)
    (hm : sidePositive m) : sidePositive (applySideDelta m price delta) := by
  unfold applySideDelta
  split
  · intro p q hpq
    simp only [] at hpq
    by_cases hp : p = price
    · rw [if_pos hp] at hpq
      exact absurd hpq (by simp)
    · rw [if_neg hp] at hpq
      exact hm p q hpq
  · intro p q hpq
    rename_i hne
    simp only [] at hpq
    by_cases hp : p = price
    · rw [if_pos hp, Option.some.injEq] at hpq
      omega
    · rw [if_neg hp] at hpq
      exact hm p q hpq

/-- C8, as amended (Kalshi book level invariant): every stored price level
on either side has quantity strictly greater than zero, and the invariant
is preserved by every operation — snapshot load inserts only positive
levels; delta apply reads the absent level as zero, pushes the stored
quantity through the wrapping `u32 -> i32` cast (the identity below
`2^31`), adds the signed delta in `i32` arithmetic, clamps at zero, and
removes the level entirely when the result is zero; and clear removes all
levels from both sides. -/
theorem kalshi_book_level_invariant :
    (∀ s : KalshiOrderbookSnapshot,
      (KalshiOrderBook.from_snapshot s).levelsPositive) ∧
    (∀ (b : KalshiOrderBook) (d : KalshiOrderbookDelta),
      b.levelsPositive → (b.apply_delta d).levelsPositive) ∧
    (∀ b : KalshiOrderBook, b.clear.levelsPositive ∧
      (∀ p, b.clear.yes p = none) ∧ (∀ p, b.clear.no p = none)) := by
  refine ⟨?_, ?_, ?_⟩
  · intro s
    exact ⟨loadSide_positive s.msg.yes, loadSide_positive s.msg.no⟩
  · intro b d hb
    unfold KalshiOrderBook.apply_delta
    split
    · exact ⟨applySideDelta_positive b.yes d.msg.price d.msg.delta hb.1, hb.2⟩
    · split
      · exact ⟨hb.1, applySideDelta_positive b.no d.msg.price d.msg.delta hb.2⟩
      · exact hb
  · intro b
    refine ⟨⟨?_, ?_⟩, fun p => rfl, fun p => rfl⟩
    · intro p q h
      exact absurd h (by simp [KalshiOrderBook.clear])
    · intro p q h
      exact absurd h (by simp [KalshiOrderBook.clear])

/-- A concrete snapshot used by the C8 witness (the unit test's data). -/
def sampleSnapshot : KalshiOrderbookSnapshot :=
  ⟨1, 1, ⟨"TEST", [(40, 100), (39, 200)], [(60, 150), (61, 250)]⟩⟩

/-- A concrete delta used by the C8 witness (removes the 40c YES level). -/
def sampleDelta : KalshiOrderbookDelta :=
  ⟨1, 2, ⟨"TEST", 40, -150, "yes"⟩⟩

/-- Witness for C8: the invariant holds of a concrete snapshot's book and is
carried through a concrete delta. -/
theorem kalshi_book_level_invariant_witness :
    (KalshiOrderBook.from_snapshot sampleSnapshot).levelsPositive ∧
    ((KalshiOrderBook.from_snapshot sampleSnapshot).apply_delta
      sampleDelta).levelsPositive :=
  ⟨kalshi_book_level_invariant.1 sampleSnapshot,
    kalshi_book_level_invariant.2.1 _ sampleDelta
      (kalshi_book_level_invariant.1 sampleSnapshot)⟩

/-- A snapshot storing a YES quantity of 3,000,000,000 (at least `2^31`,
representable in `u32`) at the 40c level. -/
def wrapSnapshot : KalshiOrderbookSnapshot :=
  ⟨1, 1, ⟨"TEST", [(40, 3000000000)], []⟩⟩

/-- A delta subtracting a single contract from that level. -/
def wrapDelta : KalshiOrderbookDelta :=
  ⟨1, 2, ⟨"TEST", 40, -1, "yes"⟩⟩

/-- Counterexample to C8 as stated: stored quantity 3,000,000,000 at 40c,
delta -1.  The claimed semantics — add the signed delta to the existing
quantity and remove the level only when the result reaches zero or below —
would keep the level at 2,999,999,999 (the third conjunct: the
mathematical sum is not at or below zero).  The code instead wraps the
quantity through the `u32 -> i32` cast to -1,294,967,296, reaches
-1,294,967,297, clamps to zero, and removes the level (second
conjunct). -/
theorem kalshi_delta_wrap_counterexample :
    (KalshiOrderBook.from_snapshot wrapSnapshot).yes 40 = some 3000000000 ∧
    ((KalshiOrderBook.from_snapshot wrapSnapshot).apply_delta
      wrapDelta).yes 40 = none ∧
    ¬ ((3000000000 : ℤ) + (-1) ≤ 0) :=
  ⟨by decide, by with_unfolding_all decide, by decide⟩

end BarterArb
